import Mathlib

/-!
Verification of the arrangement core in `src/textual/_arrange.py`.

The file embeds `_arrange.py` shallowly in Lean.  Collaborating modules
(`geometry.py`, `_partition.py`, `_layout.py`, the widget/styles object
model and the box-model computation) are not part of the source tree
handed to us, so those are modelled from the specification's data-model
and collaborator-contract sections; each such definition is marked
`Modelled from the spec:` in its doc comment.  Everything in the
`_arrange` section is translated directly from `src/textual/_arrange.py`.
-/

namespace TextualArrange

/-- Modelled from the spec: `Size` value type from `geometry.py` (not in src/):
a (width, height) pair. Python ints are modelled as `Int`. -/
structure Size where
  width : Int
  height : Int
deriving DecidableEq, Repr

/-- Modelled from the spec: `Offset` value type from `geometry.py` (not in src/). -/
structure Offset where
  x : Int
  y : Int
deriving DecidableEq, Repr

/-- Modelled from the spec: `Spacing` (top, right, bottom, left) insets from
`geometry.py` (not in src/). -/
structure Spacing where
  top : Int
  right : Int
  bottom : Int
  left : Int
deriving DecidableEq, Repr

/-- Modelled from the spec: `Region` = origin + size, from `geometry.py` (not in src/). -/
structure Region where
  x : Int
  y : Int
  width : Int
  height : Int
deriving DecidableEq, Repr

/-- The null (all-zero) spacing, `Spacing()` in the source. -/
def Spacing.null : Spacing := ⟨0, 0, 0, 0⟩

/-- Modelled from the spec: `Spacing.width` is the total horizontal inset. -/
def Spacing.width (s : Spacing) : Int := s.left + s.right

/-- Modelled from the spec: `Spacing.height` is the total vertical inset. -/
def Spacing.height (s : Spacing) : Int := s.top + s.bottom

/-- Modelled from the spec: component-wise maximum of two spacings
(`Spacing.grow_maximum`). -/
def Spacing.grow_maximum (s t : Spacing) : Spacing :=
  ⟨max s.top t.top, max s.right t.right, max s.bottom t.bottom, max s.left t.left⟩

/-- Modelled from the spec: `Size.region`, the region at origin (0,0) with this size. -/
def Size.region (s : Size) : Region := ⟨0, 0, s.width, s.height⟩

/-- Modelled from the spec: the size (extent) of a region. -/
def Region.size (r : Region) : Size := ⟨r.width, r.height⟩

/-- Modelled from the spec: the origin of a region as an offset. -/
def Region.offset (r : Region) : Offset := ⟨r.x, r.y⟩

/-- Modelled from the spec: translate a region by an offset. -/
def Region.translate (r : Region) (o : Offset) : Region :=
  ⟨r.x + o.x, r.y + o.y, r.width, r.height⟩

/-- Modelled from the spec: shrink a region by a spacing (insets applied on all
four edges; the resulting size is clamped non-negative, the spec's `Size` being
non-negative). -/
def Region.shrink (r : Region) (s : Spacing) : Region :=
  ⟨r.x + s.left, r.y + s.top,
   max 0 (r.width - s.width), max 0 (r.height - s.height)⟩

/-- Modelled from the spec: split a region on the vertical axis at `cut`
(positive = from the start, negative = from the end); returns the left and
right parts. -/
def Region.split_vertical (r : Region) (cut : Int) : Region × Region :=
  let c := if cut < 0 then r.width + cut else cut
  (⟨r.x, r.y, c, r.height⟩, ⟨r.x + c, r.y, r.width - c, r.height⟩)

/-- Modelled from the spec: split a region on the horizontal axis at `cut`
(positive = from the start, negative = from the end); returns the top and
bottom parts. -/
def Region.split_horizontal (r : Region) (cut : Int) : Region × Region :=
  let c := if cut < 0 then r.height + cut else cut
  (⟨r.x, r.y, r.width, c⟩, ⟨r.x, r.y + c, r.width, r.height - c⟩)

/-- Modelled from the spec: addition of offsets (`placement_offset += ...`). -/
def Offset.add (a b : Offset) : Offset := ⟨a.x + b.x, a.y + b.y⟩

/-- Modelled from the spec: `Offset.clamped`, clamping both components non-negative. -/
def Offset.clamped (o : Offset) : Offset := ⟨max 0 o.x, max 0 o.y⟩

/-- Python `int(...)` applied to a `Fraction`: truncation toward zero. -/
def ratToInt (q : Rat) : Int := q.num.tdiv (q.den : Int)

/-- Modelled from the spec: the box model produced for a widget —
exact rational width and height plus a margin spacing. -/
structure BoxModel where
  width : Rat
  height : Rat
  margin : Spacing

/-- Modelled from the spec: the style inputs consumed by arrangement, plus the
`_align_size` collaborator (`align_size(content_size, container_size) -> offset`,
a pure function of the widget's style). Style enumerations are kept as the
strings the source compares against ("" meaning none for dock/split). -/
structure Styles where
  display : String
  layer : String
  dock : String
  split : String
  align_horizontal : String
  align_vertical : String
  align_size : Size → Size → Offset

/-- Modelled from the spec: a widget, identified by `id` (object identity),
carrying its styles and its box-model collaborator
`compute_box_model(available_size, viewport, basis_width, basis_height)`. -/
structure Widget where
  id : Nat
  styles : Styles
  get_box_model : Size → Size → Rat → Rat → BoxModel

/-- Modelled from the spec: `WidgetPlacement` from `_layout.py` (not in src/):
region, extra-spacing margin, widget reference (by id), z-order, absolute flag. -/
structure WidgetPlacement where
  region : Region
  margin : Spacing
  widget : Nat
  order : Int
  absolute : Bool
deriving DecidableEq, Repr

/-- Modelled from the spec: `DockArrangeResult` from `_layout.py` (not in src/):
ordered placements, set of visible widgets (by id), aggregate scroll spacing. -/
structure DockArrangeResult where
  placements : List WidgetPlacement
  widgets : Finset Nat
  scroll_spacing : Spacing
deriving DecidableEq

/-- Modelled from the spec: bounding region of a set of placements
(`WidgetPlacement.get_bounds`); the union of two regions. -/
def Region.union (a b : Region) : Region :=
  let x := min a.x b.x
  let y := min a.y b.y
  ⟨x, y, max (a.x + a.width) (b.x + b.width) - x,
   max (a.y + a.height) (b.y + b.height) - y⟩

/-- Modelled from the spec: `WidgetPlacement.get_bounds`, the bounding region
of a list of placements. -/
def WidgetPlacement.get_bounds : List WidgetPlacement → Region
  | [] => ⟨0, 0, 0, 0⟩
  | p :: ps => ps.foldl (fun acc q => acc.union q.region) p.region

/-- Modelled from the spec: `WidgetPlacement.translate`, translating every
placement's region by an offset. -/
def WidgetPlacement.translate (ps : List WidgetPlacement) (o : Offset) :
    List WidgetPlacement :=
  ps.map (fun p => { p with region := p.region.translate o })

/-- Modelled from the spec: `partition(predicate, iterable)` from
`_partition.py` (not in src/): stable two-way partition, returning
(falsy, truthy) and preserving relative input order in both parts. -/
def partition (p : Widget → Bool) (l : List Widget) : List Widget × List Widget :=
  (l.filter (fun w => !(p w)), l.filter p)

/-- Truthiness of `attrgetter("styles.split")`: the split edge is non-empty. -/
def has_split (w : Widget) : Bool := w.styles.split != ""

/-- Truthiness of `attrgetter("styles.dock")`: the dock edge is non-empty. -/
def has_dock (w : Widget) : Bool := w.styles.dock != ""

/-- `TOP_Z = 2**31 - 1`, the reserved maximal z-order sentinel. -/
def TOP_Z : Int := 2 ^ 31 - 1

/-- One step of `_build_dock_layers`: append the widget to its layer's bucket,
creating the bucket at the end on first sight of the layer key. -/
def add_to_layers (layers : List (String × List Widget)) (w : Widget) :
    List (String × List Widget) :=
  if layers.any (fun p => p.1 == w.styles.layer) then
    layers.map (fun p => if p.1 == w.styles.layer then (p.1, p.2 ++ [w]) else p)
  else
    layers ++ [(w.styles.layer, [w])]

/-- `_build_dock_layers`: organize widgets into layers, in first-seen key order,
keeping input order within each layer (the `defaultdict` in the source). -/
def _build_dock_layers (widgets : List Widget) : List (String × List Widget) :=
  widgets.foldl add_to_layers []

/-- The consumed width of a split widget: `int(widget_width_fraction) + margin.width`,
with the box model computed from `size` and `viewport`. -/
def split_consumed_width (w : Widget) (size viewport : Size) : Int :=
  let bm := w.get_box_model size viewport (size.width : Rat) (size.height : Rat)
  ratToInt bm.width + bm.margin.width

/-- The consumed height of a split widget: `int(widget_height_fraction) + margin.height`,
with the box model computed from `size` and `viewport`. -/
def split_consumed_height (w : Widget) (size viewport : Size) : Int :=
  let bm := w.get_box_model size viewport (size.width : Rat) (size.height : Rat)
  ratToInt bm.height + bm.margin.height

/-- Loop state of `_arrange_split_widgets`: the running view region, the Python
local variable `split_region` (`none` while still unbound), and the placements
accumulated so far. -/
structure SplitState where
  view_region : Region
  split_region : Option Region
  placements : List WidgetPlacement
deriving Repr

/-- The `if split == ...` dispatch in the loop of `_arrange_split_widgets`:
cut the view region on the widget's split edge and record the cut-off part in
the local variable `split_region`.  When the edge matches no branch, the state
(including the stale `split_region`) is left untouched, exactly as in the
Python source where the local variable keeps its previous value. -/
def split_branch (size viewport : Size) (st : SplitState) (w : Widget) : SplitState :=
  let split := w.styles.split
  if split == "bottom" then
    let cut := st.view_region.split_horizontal (-(split_consumed_height w size viewport))
    ⟨cut.1, some cut.2, st.placements⟩
  else if split == "top" then
    let cut := st.view_region.split_horizontal (split_consumed_height w size viewport)
    ⟨cut.2, some cut.1, st.placements⟩
  else if split == "left" then
    let cut := st.view_region.split_vertical (split_consumed_width w size viewport)
    ⟨cut.2, some cut.1, st.placements⟩
  else if split == "right" then
    let cut := st.view_region.split_vertical (-(split_consumed_width w size viewport))
    ⟨cut.1, some cut.2, st.placements⟩
  else st

/-- One iteration of the loop in `_arrange_split_widgets`: dispatch on the
widget's split edge, then append a placement built from the local variable
`split_region`.  If that variable was never assigned, Python raises
`UnboundLocalError`, modelled as `Except.error`. -/
def split_step (size viewport : Size) (st : SplitState) (w : Widget) :
    Except String SplitState :=
  let st1 := split_branch size viewport st w
  match st1.split_region with
  | none => .error "UnboundLocalError: split_region"
  | some sr =>
      .ok ⟨st1.view_region, some sr,
           st1.placements ++ [⟨sr, Spacing.null, w.id, 1, true⟩]⟩

/-- The loop of `_arrange_split_widgets` over the split widgets. -/
def split_loop (size viewport : Size) : SplitState → List Widget → Except String SplitState
  | st, [] => .ok st
  | st, w :: ws => do
      let st' ← split_step size viewport st w
      split_loop size viewport st' ws

/-- `_arrange_split_widgets`: arrange split widgets, starting from
`view_region = size.region`, returning the placements and the remaining view
region. -/
def _arrange_split_widgets (split_widgets : List Widget) (size viewport : Size) :
    Except String (List WidgetPlacement × Region) :=
  (split_loop size viewport ⟨size.region, none, []⟩ split_widgets).map
    (fun st => (st.placements, st.view_region))

/-- The consumed width of a dock widget: `int(widget_width_fraction) + margin.width`. -/
def dock_consumed_width (w : Widget) (size viewport : Size) : Int :=
  let bm := w.get_box_model size viewport (size.width : Rat) (size.height : Rat)
  ratToInt bm.width + bm.margin.width

/-- The consumed height of a dock widget: `int(widget_height_fraction) + margin.height`. -/
def dock_consumed_height (w : Widget) (size viewport : Size) : Int :=
  let bm := w.get_box_model size viewport (size.width : Rat) (size.height : Rat)
  ratToInt bm.height + bm.margin.height

/-- The `dock_region` rectangle built by the edge dispatch in
`_arrange_dock_widgets`, before the margin shrink and the alignment and origin
translations; `none` models the `raise AssertionError` branch for an
unrecognized edge. -/
def initial_dock_region (edge : String) (width height widget_width widget_height : Int) :
    Option Region :=
  if edge == "bottom" then some ⟨0, height - widget_height, widget_width, widget_height⟩
  else if edge == "top" then some ⟨0, 0, widget_width, widget_height⟩
  else if edge == "left" then some ⟨0, 0, widget_width, widget_height⟩
  else if edge == "right" then some ⟨width - widget_width, 0, widget_width, widget_height⟩
  else none

/-- Loop state of `_arrange_dock_widgets`: accumulated placements and the four
running edge maxima. -/
structure DockState where
  placements : List WidgetPlacement
  top : Int
  right : Int
  bottom : Int
  left : Int
deriving Repr

/-- The per-edge update of the four running maxima in `_arrange_dock_widgets`
(`top = max(top, widget_height)` and friends). -/
def dock_update_maxima (st : DockState) (edge : String)
    (widget_width widget_height : Int) : DockState :=
  if edge == "bottom" then { st with bottom := max st.bottom widget_height }
  else if edge == "top" then { st with top := max st.top widget_height }
  else if edge == "left" then { st with left := max st.left widget_width }
  else { st with right := max st.right widget_width }

/-- One iteration of the loop in `_arrange_dock_widgets`: compute the box
model against the region's size, build the edge rectangle, update the edge
maximum, shrink by the margin, translate by the alignment offset and the
region origin, and emit a placement with z-order `TOP_Z` and `absolute = true`. -/
def dock_step (region : Region) (viewport : Size) (st : DockState) (w : Widget) :
    Except String DockState :=
  let size := region.size
  let bm := w.get_box_model size viewport (size.width : Rat) (size.height : Rat)
  let widget_width := dock_consumed_width w size viewport
  let widget_height := dock_consumed_height w size viewport
  let edge := w.styles.dock
  match initial_dock_region edge region.width region.height widget_width widget_height with
  | none => .error "AssertionError: invalid value for edge"
  | some dock_region =>
      let st1 := dock_update_maxima st edge widget_width widget_height
      let align_offset := w.styles.align_size ⟨widget_width, widget_height⟩ size
      let final_region :=
        ((dock_region.shrink bm.margin).translate align_offset).translate region.offset
      .ok { st1 with
            placements := st1.placements ++ [⟨final_region, Spacing.null, w.id, TOP_Z, true⟩] }

/-- The loop of `_arrange_dock_widgets` over the dock widgets. -/
def dock_loop (region : Region) (viewport : Size) : DockState → List Widget → Except String DockState
  | st, [] => .ok st
  | st, w :: ws => do
      let st' ← dock_step region viewport st w
      dock_loop region viewport st' ws

/-- `_arrange_dock_widgets`: arrange docked widgets within a region, returning
the placements and the `Spacing` built from the four edge maxima. -/
def _arrange_dock_widgets (dock_widgets : List Widget) (region : Region) (viewport : Size) :
    Except String (List WidgetPlacement × Spacing) :=
  (dock_loop region viewport ⟨[], 0, 0, 0, 0⟩ dock_widgets).map
    (fun st => (st.placements, ⟨st.top, st.right, st.bottom, st.left⟩))

/-- The per-layer body of the loop in `arrange`: split arrangement, dock
arrangement, then delegation of the remaining flow widgets to the container's
layout (`layout_arrange` models `widget._layout.arrange`), with alignment and
origin translation, threading the accumulated (placements, scroll_spacing). -/
def layer_step (styles : Styles) (layout_arrange : List Widget → Size → List WidgetPlacement)
    (size viewport : Size) (acc : List WidgetPlacement × Spacing) (widgets : List Widget) :
    Except String (List WidgetPlacement × Spacing) :=
  let non_split_widgets := (partition has_split widgets).1
  let split_widgets := (partition has_split widgets).2
  let split_result : Except String (List WidgetPlacement × Region) :=
    if split_widgets.isEmpty then .ok ([], size.region)
    else _arrange_split_widgets split_widgets size viewport
  match split_result with
  | .error e => .error e
  | .ok (split_placements, dock_region) =>
      let layout_widgets := (partition has_dock non_split_widgets).1
      let dock_widgets := (partition has_dock non_split_widgets).2
      let dock_result : Except String (List WidgetPlacement × Spacing) :=
        if dock_widgets.isEmpty then .ok ([], Spacing.null)
        else _arrange_dock_widgets dock_widgets dock_region viewport
      match dock_result with
      | .error e => .error e
      | .ok (dock_placements, dock_spacing) =>
          let region := dock_region.shrink dock_spacing
          let placements := acc.1 ++ split_placements ++ dock_placements
          if layout_widgets.isEmpty then .ok (placements, acc.2)
          else
            let layout_placements := layout_arrange layout_widgets region.size
            let scroll_spacing := acc.2.grow_maximum dock_spacing
            let placement_offset :=
              if styles.align_horizontal != "left" || styles.align_vertical != "top" then
                let bounding_region := WidgetPlacement.get_bounds layout_placements
                (region.offset).add ((styles.align_size bounding_region.size region.size).clamped)
              else region.offset
            let layout_placements :=
              if placement_offset != (⟨0, 0⟩ : Offset) then
                WidgetPlacement.translate layout_placements placement_offset
              else layout_placements
            .ok (placements ++ layout_placements, scroll_spacing)

/-- The loop of `arrange` over the dock layers. -/
def arrange_layers (styles : Styles) (layout_arrange : List Widget → Size → List WidgetPlacement)
    (size viewport : Size) :
    List WidgetPlacement × Spacing → List (List Widget) →
    Except String (List WidgetPlacement × Spacing)
  | acc, [] => .ok acc
  | acc, ws :: rest => do
      let acc' ← layer_step styles layout_arrange size viewport acc ws
      arrange_layers styles layout_arrange size viewport acc' rest

/-- `arrange`: filter out children with `display == "none"`, group the rest
into layers, process each layer, and return the placements, the set of
displayed widgets and the aggregate scroll spacing. -/
def arrange (widget : Widget) (layout_arrange : List Widget → Size → List WidgetPlacement)
    (children : List Widget) (size viewport : Size) : Except String DockArrangeResult := do
  let display_widgets := children.filter (fun c => c.styles.display != "none")
  let dock_layers := _build_dock_layers display_widgets
  let acc ← arrange_layers widget.styles layout_arrange size viewport
    ([], Spacing.null) (dock_layers.map Prod.snd)
  pure ⟨acc.1, (display_widgets.map Widget.id).toFinset, acc.2⟩

/-! ### Specification-side comparison definitions -/

/-- Specification-side: the running edge maximum the spec ascribes to dock
arrangement — fold `max` of each widget's consumed thickness over the widgets
docked on the given edge. -/
def edge_max (edge : String) (consumed : Widget → Int) (ws : List Widget) (a : Int) : Int :=
  (ws.filter (fun w => w.styles.dock == edge)).foldl (fun acc w => max acc (consumed w)) a

/-- Specification-side: a layer contains at least one flow (neither docked nor
split) widget. -/
def layer_has_flow (widgets : List Widget) : Bool :=
  !((partition has_dock (partition has_split widgets).1).1.isEmpty)

/-- Specification-side: the dock `Spacing` a layer produces — null when the
layer has no dock widgets, otherwise the spacing computed by
`_arrange_dock_widgets` on the split-reduced region. -/
def layer_dock_spacing (size viewport : Size) (widgets : List Widget) : Spacing :=
  let split_widgets := (partition has_split widgets).2
  let dock_region :=
    if split_widgets.isEmpty then size.region
    else
      match _arrange_split_widgets split_widgets size viewport with
      | .ok x => x.2
      | .error _ => size.region
  let dock_widgets := (partition has_dock (partition has_split widgets).1).2
  if dock_widgets.isEmpty then Spacing.null
  else
    match _arrange_dock_widgets dock_widgets dock_region viewport with
    | .ok x => x.2
    | .error _ => Spacing.null

/-- A dock/split edge value recognized by the arrangement dispatch. -/
def valid_edge (e : String) : Prop :=
  e = "top" ∨ e = "right" ∨ e = "bottom" ∨ e = "left"

instance (e : String) : Decidable (valid_edge e) := by
  unfold valid_edge; infer_instance

/-- A widget whose dock and split values are each either empty or a
recognized edge. -/
def valid_edges (w : Widget) : Prop :=
  (w.styles.dock = "" ∨ valid_edge w.styles.dock) ∧
  (w.styles.split = "" ∨ valid_edge w.styles.split)

instance (w : Widget) : Decidable (valid_edges w) := by
  unfold valid_edges; infer_instance

/-! ### Concrete widgets used by examples, witnesses and counterexamples -/

/-- An alignment collaborator that always returns the zero offset. -/
def no_align : Size → Size → Offset := fun _ _ => ⟨0, 0⟩

/-- Build a `Styles` value with default alignment and the zero-offset
alignment collaborator. -/
def mk_styles (display layer dock split : String) : Styles :=
  ⟨display, layer, dock, split, "left", "top", no_align⟩

/-- A box model that ignores all of its arguments. -/
def const_box (w h : Rat) (m : Spacing) : Size → Size → Rat → Rat → BoxModel :=
  fun _ _ _ _ => ⟨w, h, m⟩

/-- Split-left widget consuming width 4. -/
def w_left4 : Widget := ⟨1, mk_styles "block" "" "" "left", const_box 4 0 Spacing.null⟩

/-- Split-right widget consuming width 3. -/
def w_right3 : Widget := ⟨2, mk_styles "block" "" "" "right", const_box 3 0 Spacing.null⟩

/-- Split-left widget whose box-model width depends on the available size it is
given: width 10 when offered width 20, width 8 otherwise (in particular when
offered the split-reduced width 16). -/
def w_half : Widget :=
  ⟨3, mk_styles "block" "" "" "left",
   fun sz _ _ _ => if sz.width == 20 then ⟨10, 0, Spacing.null⟩ else ⟨8, 0, Spacing.null⟩⟩

/-- Split-top widget consuming height 2. -/
def w_top2 : Widget := ⟨4, mk_styles "block" "" "" "top", const_box 0 2 Spacing.null⟩

/-- Widget with an unrecognized split edge. -/
def w_bad_split : Widget := ⟨5, mk_styles "block" "" "" "diagonal", const_box 0 0 Spacing.null⟩

/-- Widget with an unrecognized dock edge. -/
def w_bad_dock : Widget := ⟨6, mk_styles "block" "" "diagonal" "", const_box 0 0 Spacing.null⟩

/-- Dock-top widget whose box model resolves to width 5, height 2 — narrower
than the region it is docked in. -/
def w_dock_narrow : Widget := ⟨7, mk_styles "block" "" "top" "", const_box 5 2 Spacing.null⟩

/-- Dock-top widget with a non-zero margin on all four sides. -/
def w_dock_margin : Widget := ⟨8, mk_styles "block" "" "top" "", const_box 5 2 ⟨1, 1, 1, 1⟩⟩

/-- Split-left widget with a non-zero margin on all four sides. -/
def w_split_margin : Widget := ⟨16, mk_styles "block" "" "" "left", const_box 4 0 ⟨1, 1, 1, 1⟩⟩

/-- Dock-top widget of consumed height 3. -/
def w_dock_top3 : Widget := ⟨9, mk_styles "block" "" "top" "", const_box 20 3 Spacing.null⟩

/-- Dock-top widget of consumed height 5. -/
def w_dock_top5 : Widget := ⟨10, mk_styles "block" "" "top" "", const_box 20 5 Spacing.null⟩

/-- Flow widget on layer "a". -/
def w_flowA : Widget := ⟨11, mk_styles "block" "a" "" "", const_box 1 1 Spacing.null⟩

/-- Dock-top widget of consumed height 2 on layer "a". -/
def w_dockA2 : Widget := ⟨12, mk_styles "block" "a" "top" "", const_box 20 2 Spacing.null⟩

/-- Dock-top widget of consumed height 5 on layer "b". -/
def w_dockB5 : Widget := ⟨13, mk_styles "block" "b" "top" "", const_box 20 5 Spacing.null⟩

/-- Widget with `display: none`, on layer "a". -/
def w_hidden : Widget := ⟨14, mk_styles "none" "a" "" "", const_box 1 1 Spacing.null⟩

/-- Split-bottom widget consuming height 1. -/
def w_bottom1 : Widget := ⟨15, mk_styles "block" "" "" "bottom", const_box 0 1 Spacing.null⟩

/-- A container widget with default (left/top) alignment. -/
def c_container : Widget := ⟨0, mk_styles "block" "" "" "", const_box 0 0 Spacing.null⟩

/-- A simple flow-layout delegate: place each widget at (0,0) with size 1×1,
z-order 0, non-absolute.  It references exactly the widgets it is given. -/
def demo_la : List Widget → Size → List WidgetPlacement :=
  fun ws _ => ws.map (fun w => ⟨⟨0, 0, 1, 1⟩, Spacing.null, w.id, 0, false⟩)

/-- The arrangement result for the visibility-gate example: children
`[w_flowA, w_hidden]` in a 20×10 region. -/
def c7_result : DockArrangeResult :=
  ⟨[⟨⟨0, 0, 1, 1⟩, Spacing.null, 11, 0, false⟩],
   ([w_flowA].map Widget.id).toFinset, Spacing.null⟩

/-! ### Helper lemmas -/

lemma split_branch_placements (size viewport : Size) (st : SplitState) (w : Widget) :
    (split_branch size viewport st w).placements = st.placements := by
  simp only [split_branch]
  split_ifs <;> rfl

lemma split_step_ok_shape {size viewport : Size} {st : SplitState} {w : Widget}
    {st' : SplitState} (h : split_step size viewport st w = .ok st') :
    ∃ sr, st'.view_region = (split_branch size viewport st w).view_region ∧
      st'.split_region = some sr ∧
      st'.placements = st.placements ++ [⟨sr, Spacing.null, w.id, 1, true⟩] := by
  rcases hsr : (split_branch size viewport st w).split_region with _ | sr
  · simp only [split_step, hsr] at h
    exact Except.noConfusion h
  · simp only [split_step, hsr] at h
    cases h
    exact ⟨sr, rfl, rfl, by rw [split_branch_placements]⟩

lemma split_loop_ok_placements {size viewport : Size} :
    ∀ (ws : List Widget) (st st' : SplitState),
    split_loop size viewport st ws = .ok st' →
    ∀ p ∈ st'.placements, p ∈ st.placements ∨
      (p.margin = Spacing.null ∧ p.order = 1 ∧ p.absolute = true ∧
       p.widget ∈ ws.map Widget.id) := by
  intro ws
  induction ws with
  | nil =>
      intro st st' h p hp
      cases h
      exact Or.inl hp
  | cons w ws ih =>
      intro st st' h p hp
      simp only [split_loop] at h
      cases hstep : split_step size viewport st w with
      | error e => rw [hstep] at h; cases h
      | ok st1 =>
          rw [hstep] at h
          replace h : split_loop size viewport st1 ws = .ok st' := h
          rcases ih st1 st' h p hp with hin | hemit
          · obtain ⟨sr, _, _, hpl⟩ := split_step_ok_shape hstep
            rw [hpl] at hin
            rcases List.mem_append.mp hin with h1 | h2
            · exact Or.inl h1
            · rcases List.mem_singleton.mp h2 with rfl
              exact Or.inr ⟨rfl, rfl, rfl, by simp⟩
          · obtain ⟨a, b, c, d⟩ := hemit
            refine Or.inr ⟨a, b, c, ?_⟩
            simp only [List.map_cons, List.mem_cons]
            exact Or.inr d

lemma dock_update_maxima_placements (st : DockState) (edge : String) (a b : Int) :
    (dock_update_maxima st edge a b).placements = st.placements := by
  simp only [dock_update_maxima]
  split_ifs <;> rfl

lemma initial_dock_region_some {edge : String} {W H a b : Int} {r : Region}
    (h : initial_dock_region edge W H a b = some r) : valid_edge edge := by
  simp only [initial_dock_region] at h
  split_ifs at h with h1 h2 h3 h4
  · exact Or.inr (Or.inr (Or.inl (by simpa using h1)))
  · exact Or.inl (by simpa using h2)
  · exact Or.inr (Or.inr (Or.inr (by simpa using h3)))
  · exact Or.inr (Or.inl (by simpa using h4))

lemma dock_step_ok_shape {region : Region} {viewport : Size} {st : DockState} {w : Widget}
    {st' : DockState} (h : dock_step region viewport st w = .ok st') :
    ∃ r0, initial_dock_region w.styles.dock region.width region.height
        (dock_consumed_width w region.size viewport)
        (dock_consumed_height w region.size viewport) = some r0 ∧
      st' = { dock_update_maxima st w.styles.dock
                (dock_consumed_width w region.size viewport)
                (dock_consumed_height w region.size viewport) with
              placements := st.placements ++
                [⟨((r0.shrink (w.get_box_model region.size viewport
                      (region.size.width : Rat) (region.size.height : Rat)).margin).translate
                    (w.styles.align_size
                      ⟨dock_consumed_width w region.size viewport,
                       dock_consumed_height w region.size viewport⟩ region.size)).translate
                   region.offset,
                  Spacing.null, w.id, TOP_Z, true⟩] } := by
  rcases hr : initial_dock_region w.styles.dock region.width region.height
      (dock_consumed_width w region.size viewport)
      (dock_consumed_height w region.size viewport) with _ | r0
  · simp only [dock_step, hr] at h
    exact Except.noConfusion h
  · simp only [dock_step, hr] at h
    cases h
    exact ⟨r0, rfl, by rw [dock_update_maxima_placements]⟩

lemma dock_loop_ok_placements {region : Region} {viewport : Size} :
    ∀ (ws : List Widget) (st st' : DockState),
    dock_loop region viewport st ws = .ok st' →
    ∀ p ∈ st'.placements, p ∈ st.placements ∨
      (p.margin = Spacing.null ∧ p.order = TOP_Z ∧ p.absolute = true ∧
       p.widget ∈ ws.map Widget.id) := by
  intro ws
  induction ws with
  | nil =>
      intro st st' h p hp
      cases h
      exact Or.inl hp
  | cons w ws ih =>
      intro st st' h p hp
      simp only [dock_loop] at h
      cases hstep : dock_step region viewport st w with
      | error e => rw [hstep] at h; cases h
      | ok st1 =>
          rw [hstep] at h
          replace h : dock_loop region viewport st1 ws = .ok st' := h
          rcases ih st1 st' h p hp with hin | hemit
          · obtain ⟨r0, _, hshape⟩ := dock_step_ok_shape hstep
            rw [hshape] at hin
            rcases List.mem_append.mp hin with h1 | h2
            · exact Or.inl h1
            · rcases List.mem_singleton.mp h2 with rfl
              exact Or.inr ⟨rfl, rfl, rfl, by simp⟩
          · obtain ⟨a, b, c, d⟩ := hemit
            refine Or.inr ⟨a, b, c, ?_⟩
            simp only [List.map_cons, List.mem_cons]
            exact Or.inr d

lemma edge_max_cons (e : String) (c : Widget → Int) (w : Widget) (ws : List Widget) (a : Int) :
    edge_max e c (w :: ws) a =
      edge_max e c ws (if w.styles.dock == e then max a (c w) else a) := by
  unfold edge_max
  rw [List.filter_cons]
  by_cases hc : (w.styles.dock == e) = true
  · simp [hc]
  · simp [hc]

lemma dock_step_ok_maxima {region : Region} {viewport : Size} {st : DockState} {w : Widget}
    {st' : DockState} (h : dock_step region viewport st w = .ok st') :
    valid_edge w.styles.dock ∧
    st'.top = (if w.styles.dock == "top"
               then max st.top (dock_consumed_height w region.size viewport) else st.top) ∧
    st'.right = (if w.styles.dock == "right"
                 then max st.right (dock_consumed_width w region.size viewport) else st.right) ∧
    st'.bottom = (if w.styles.dock == "bottom"
                  then max st.bottom (dock_consumed_height w region.size viewport) else st.bottom) ∧
    st'.left = (if w.styles.dock == "left"
                then max st.left (dock_consumed_width w region.size viewport) else st.left) := by
  obtain ⟨r0, hr, hshape⟩ := dock_step_ok_shape h
  have hv := initial_dock_region_some hr
  subst hshape
  refine ⟨hv, ?_, ?_, ?_, ?_⟩ <;>
    (rcases hv with h1 | h1 | h1 | h1 <;> rw [h1] <;> rfl)

lemma dock_loop_ok_maxima {region : Region} {viewport : Size} :
    ∀ (ws : List Widget) (st st' : DockState),
    dock_loop region viewport st ws = .ok st' →
    st'.top = edge_max "top" (fun w => dock_consumed_height w region.size viewport) ws st.top ∧
    st'.right = edge_max "right" (fun w => dock_consumed_width w region.size viewport) ws st.right ∧
    st'.bottom = edge_max "bottom" (fun w => dock_consumed_height w region.size viewport) ws st.bottom ∧
    st'.left = edge_max "left" (fun w => dock_consumed_width w region.size viewport) ws st.left := by
  intro ws
  induction ws with
  | nil =>
      intro st st' h
      cases h
      exact ⟨rfl, rfl, rfl, rfl⟩
  | cons w ws ih =>
      intro st st' h
      simp only [dock_loop] at h
      cases hstep : dock_step region viewport st w with
      | error e => rw [hstep] at h; exact Except.noConfusion h
      | ok st1 =>
          rw [hstep] at h
          replace h : dock_loop region viewport st1 ws = .ok st' := h
          obtain ⟨hv, ht, hr, hb, hl⟩ := dock_step_ok_maxima hstep
          obtain ⟨it, ir, ib, il⟩ := ih st1 st' h
          refine ⟨?_, ?_, ?_, ?_⟩
          · rw [it, ht, edge_max_cons]
          · rw [ir, hr, edge_max_cons]
          · rw [ib, hb, edge_max_cons]
          · rw [il, hl, edge_max_cons]

lemma split_loop_append (size viewport : Size) :
    ∀ (ws1 ws2 : List Widget) (st : SplitState),
    split_loop size viewport st (ws1 ++ ws2) =
      (split_loop size viewport st ws1).bind
        (fun st1 => split_loop size viewport st1 ws2) := by
  intro ws1
  induction ws1 with
  | nil => intro ws2 st; rfl
  | cons w ws ih =>
      intro ws2 st
      simp only [List.cons_append, split_loop]
      cases hstep : split_step size viewport st w with
      | error e => rfl
      | ok st1 => exact ih ws2 st1

lemma split_step_total {size viewport : Size} {st : SplitState} {w : Widget}
    (hv : valid_edge w.styles.split) :
    ∃ st', split_step size viewport st w = .ok st' := by
  rcases hv with h | h | h | h <;>
    (simp only [split_step, split_branch, h]; exact ⟨_, rfl⟩)

lemma split_loop_total {size viewport : Size} :
    ∀ (ws : List Widget), (∀ w ∈ ws, valid_edge w.styles.split) →
    ∀ st, ∃ st', split_loop size viewport st ws = .ok st' := by
  intro ws
  induction ws with
  | nil => intro _ st; exact ⟨st, rfl⟩
  | cons w ws ih =>
      intro hv st
      obtain ⟨st1, h1⟩ := @split_step_total size viewport st w (hv w (List.mem_cons_self w ws))
      obtain ⟨st2, h2⟩ := ih (fun x hx => hv x (List.mem_cons_of_mem w hx)) st1
      refine ⟨st2, ?_⟩
      simp only [split_loop]
      rw [h1]
      exact h2

lemma dock_step_total {region : Region} {viewport : Size} {st : DockState} {w : Widget}
    (hv : valid_edge w.styles.dock) :
    ∃ st', dock_step region viewport st w = .ok st' := by
  rcases hv with h | h | h | h <;>
    (simp only [dock_step, initial_dock_region, h]; exact ⟨_, rfl⟩)

lemma dock_loop_total {region : Region} {viewport : Size} :
    ∀ (ws : List Widget), (∀ w ∈ ws, valid_edge w.styles.dock) →
    ∀ st, ∃ st', dock_loop region viewport st ws = .ok st' := by
  intro ws
  induction ws with
  | nil => intro _ st; exact ⟨st, rfl⟩
  | cons w ws ih =>
      intro hv st
      obtain ⟨st1, h1⟩ := @dock_step_total region viewport st w (hv w (List.mem_cons_self w ws))
      obtain ⟨st2, h2⟩ := ih (fun x hx => hv x (List.mem_cons_of_mem w hx)) st1
      refine ⟨st2, ?_⟩
      simp only [dock_loop]
      rw [h1]
      exact h2

lemma mem_add_to_layers {layers : List (String × List Widget)} {w x : Widget}
    {q : String × List Widget} (hq : q ∈ add_to_layers layers w) (hx : x ∈ q.2) :
    (∃ p ∈ layers, x ∈ p.2) ∨ x = w := by
  unfold add_to_layers at hq
  by_cases hc : layers.any (fun p => p.1 == w.styles.layer) = true
  · rw [if_pos hc] at hq
    rcases List.mem_map.mp hq with ⟨p, hp, hpq⟩
    by_cases he : (p.1 == w.styles.layer) = true
    · rw [if_pos he] at hpq
      subst hpq
      rcases List.mem_append.mp hx with h1 | h2
      · exact Or.inl ⟨p, hp, h1⟩
      · exact Or.inr (List.mem_singleton.mp h2)
    · rw [if_neg he] at hpq
      subst hpq
      exact Or.inl ⟨p, hp, hx⟩
  · rw [if_neg hc] at hq
    rcases List.mem_append.mp hq with h1 | h2
    · exact Or.inl ⟨q, h1, hx⟩
    · rcases List.mem_singleton.mp h2 with rfl
      exact Or.inr (List.mem_singleton.mp hx)

lemma mem_foldl_add_to_layers :
    ∀ (ws : List Widget) (acc : List (String × List Widget))
      (q : String × List Widget) (x : Widget),
    q ∈ ws.foldl add_to_layers acc → x ∈ q.2 →
    (∃ p ∈ acc, x ∈ p.2) ∨ x ∈ ws := by
  intro ws
  induction ws with
  | nil =>
      intro acc q x hq hx
      exact Or.inl ⟨q, hq, hx⟩
  | cons w ws ih =>
      intro acc q x hq hx
      rcases ih (add_to_layers acc w) q x hq hx with h1 | h2
      · obtain ⟨p, hp, hxp⟩ := h1
        rcases mem_add_to_layers hp hxp with h3 | h4
        · exact Or.inl h3
        · exact Or.inr (by rw [h4]; exact List.mem_cons_self w ws)
      · exact Or.inr (List.mem_cons_of_mem w h2)

lemma mem_build_dock_layers {ws : List Widget} {q : String × List Widget} {x : Widget}
    (hq : q ∈ _build_dock_layers ws) (hx : x ∈ q.2) : x ∈ ws := by
  rcases mem_foldl_add_to_layers ws [] q x hq hx with h | h
  · obtain ⟨p, hp, _⟩ := h
    exact absurd hp (List.not_mem_nil p)
  · exact h

lemma layer_dock_spacing_eq {size viewport : Size} {widgets : List Widget}
    {sp : List WidgetPlacement} {dr : Region} {dp : List WidgetPlacement} {ds : Spacing}
    (heqsplit : (if (partition has_split widgets).2.isEmpty
                 then Except.ok ([], size.region)
                 else _arrange_split_widgets (partition has_split widgets).2 size viewport) =
                Except.ok (sp, dr))
    (heqdock : (if (partition has_dock (partition has_split widgets).1).2.isEmpty
                then Except.ok ([], Spacing.null)
                else _arrange_dock_widgets (partition has_dock (partition has_split widgets).1).2
                       dr viewport) =
               Except.ok (dp, ds)) :
    layer_dock_spacing size viewport widgets = ds := by
  simp only [layer_dock_spacing]
  by_cases h1 : (partition has_split widgets).2.isEmpty
  · rw [if_pos h1] at heqsplit
    cases heqsplit
    rw [if_pos h1]
    by_cases h2 : (partition has_dock (partition has_split widgets).1).2.isEmpty
    · rw [if_pos h2] at heqdock
      cases heqdock
      rw [if_pos h2]
    · rw [if_neg h2] at heqdock
      rw [if_neg h2, heqdock]
  · rw [if_neg h1] at heqsplit
    rw [if_neg h1, heqsplit]
    by_cases h2 : (partition has_dock (partition has_split widgets).1).2.isEmpty
    · rw [if_pos h2] at heqdock
      cases heqdock
      rw [if_pos h2]
    · rw [if_neg h2] at heqdock
      rw [if_neg h2, heqdock]

lemma layer_step_ok_scroll {styles : Styles}
    {la : List Widget → Size → List WidgetPlacement} {size viewport : Size}
    {acc : List WidgetPlacement × Spacing} {widgets : List Widget}
    {acc' : List WidgetPlacement × Spacing}
    (h : layer_step styles la size viewport acc widgets = .ok acc') :
    acc'.2 = if layer_has_flow widgets
             then acc.2.grow_maximum (layer_dock_spacing size viewport widgets)
             else acc.2 := by
  simp only [layer_step] at h
  split at h
  · exact Except.noConfusion h
  next sp dr heqsplit =>
    split at h
    · exact Except.noConfusion h
    next dp ds heqdock =>
      split at h
      next hfl =>
        cases h
        have hflow : layer_has_flow widgets = false := by
          simp only [layer_has_flow, Bool.not_eq_true']
          simpa using hfl
        rw [hflow]
        simp
      next hfl =>
        cases h
        have hflow : layer_has_flow widgets = true := by
          simp only [layer_has_flow]
          simpa using hfl
        rw [hflow, layer_dock_spacing_eq heqsplit heqdock]
        simp

lemma arrange_layers_ok_scroll {styles : Styles}
    {la : List Widget → Size → List WidgetPlacement} {size viewport : Size} :
    ∀ (layers : List (List Widget)) (acc acc' : List WidgetPlacement × Spacing),
    arrange_layers styles la size viewport acc layers = .ok acc' →
    acc'.2 = layers.foldl
      (fun s ws => if layer_has_flow ws
                   then s.grow_maximum (layer_dock_spacing size viewport ws) else s)
      acc.2 := by
  intro layers
  induction layers with
  | nil =>
      intro acc acc' h
      cases h
      rfl
  | cons ws rest ih =>
      intro acc acc' h
      simp only [arrange_layers] at h
      cases hstep : layer_step styles la size viewport acc ws with
      | error e => rw [hstep] at h; exact Except.noConfusion h
      | ok acc1 =>
          rw [hstep] at h
          replace h : arrange_layers styles la size viewport acc1 rest = .ok acc' := h
          rw [List.foldl_cons, ← layer_step_ok_scroll hstep]
          exact ih acc1 acc' h

lemma arrange_ok_inv {widget : Widget} {la : List Widget → Size → List WidgetPlacement}
    {children : List Widget} {size viewport : Size} {res : DockArrangeResult}
    (h : arrange widget la children size viewport = .ok res) :
    ∃ acc, arrange_layers widget.styles la size viewport ([], Spacing.null)
        ((_build_dock_layers
          (children.filter (fun c => c.styles.display != "none"))).map Prod.snd) = .ok acc ∧
      res = ⟨acc.1,
             ((children.filter (fun c => c.styles.display != "none")).map Widget.id).toFinset,
             acc.2⟩ := by
  simp only [arrange] at h
  cases harr : arrange_layers widget.styles la size viewport ([], Spacing.null)
      ((_build_dock_layers
        (children.filter (fun c => c.styles.display != "none"))).map Prod.snd) with
  | error e => rw [harr] at h; exact Except.noConfusion h
  | ok acc =>
      rw [harr] at h
      replace h : Except.ok
          (⟨acc.1,
            ((children.filter (fun c => c.styles.display != "none")).map Widget.id).toFinset,
            acc.2⟩ : DockArrangeResult) = .ok res := h
      cases h
      exact ⟨acc, rfl, rfl⟩

lemma arrange_split_placements {split_widgets : List Widget} {size viewport : Size}
    {sp : List WidgetPlacement} {dr : Region}
    (h : _arrange_split_widgets split_widgets size viewport = .ok (sp, dr)) :
    ∀ p ∈ sp, p.margin = Spacing.null ∧ p.order = 1 ∧ p.absolute = true ∧
      p.widget ∈ split_widgets.map Widget.id := by
  unfold _arrange_split_widgets at h
  cases hsl : split_loop size viewport ⟨size.region, none, []⟩ split_widgets with
  | error e => rw [hsl] at h; exact Except.noConfusion h
  | ok st =>
      rw [hsl] at h
      replace h : Except.ok (st.placements, st.view_region) = .ok (sp, dr) := h
      cases h
      intro p hp
      rcases split_loop_ok_placements split_widgets _ _ hsl p hp with h1 | h2
      · exact absurd h1 (List.not_mem_nil p)
      · exact h2

lemma arrange_dock_placements {dock_widgets : List Widget} {region : Region} {viewport : Size}
    {dp : List WidgetPlacement} {ds : Spacing}
    (h : _arrange_dock_widgets dock_widgets region viewport = .ok (dp, ds)) :
    ∀ p ∈ dp, p.margin = Spacing.null ∧ p.order = TOP_Z ∧ p.absolute = true ∧
      p.widget ∈ dock_widgets.map Widget.id := by
  unfold _arrange_dock_widgets at h
  cases hdl : dock_loop region viewport ⟨[], 0, 0, 0, 0⟩ dock_widgets with
  | error e => rw [hdl] at h; exact Except.noConfusion h
  | ok st =>
      rw [hdl] at h
      replace h : Except.ok (st.placements, (⟨st.top, st.right, st.bottom, st.left⟩ : Spacing)) =
          .ok (dp, ds) := h
      cases h
      intro p hp
      rcases dock_loop_ok_placements dock_widgets _ _ hdl p hp with h1 | h2
      · exact absurd h1 (List.not_mem_nil p)
      · exact h2

lemma arrange_dock_spacing {dock_widgets : List Widget} {region : Region} {viewport : Size}
    {dp : List WidgetPlacement} {ds : Spacing}
    (h : _arrange_dock_widgets dock_widgets region viewport = .ok (dp, ds)) :
    ds = ⟨edge_max "top" (fun w => dock_consumed_height w region.size viewport) dock_widgets 0,
          edge_max "right" (fun w => dock_consumed_width w region.size viewport) dock_widgets 0,
          edge_max "bottom" (fun w => dock_consumed_height w region.size viewport) dock_widgets 0,
          edge_max "left" (fun w => dock_consumed_width w region.size viewport) dock_widgets 0⟩ := by
  unfold _arrange_dock_widgets at h
  cases hdl : dock_loop region viewport ⟨[], 0, 0, 0, 0⟩ dock_widgets with
  | error e => rw [hdl] at h; exact Except.noConfusion h
  | ok st =>
      rw [hdl] at h
      replace h : Except.ok (st.placements, (⟨st.top, st.right, st.bottom, st.left⟩ : Spacing)) =
          .ok (dp, ds) := h
      cases h
      obtain ⟨ht, hr, hb, hl⟩ := dock_loop_ok_maxima dock_widgets _ _ hdl
      rw [ht, hr, hb, hl]

lemma translate_mem {ps : List WidgetPlacement} {o : Offset} {p : WidgetPlacement}
    (hp : p ∈ WidgetPlacement.translate ps o) : ∃ q ∈ ps, p.widget = q.widget := by
  rcases List.mem_map.mp hp with ⟨q, hq, rfl⟩
  exact ⟨q, hq, rfl⟩

lemma mem_partition_fst {pr : Widget → Bool} {l : List Widget} {w : Widget}
    (h : w ∈ (partition pr l).1) : w ∈ l :=
  (List.mem_filter.mp h).1

lemma mem_partition_snd {pr : Widget → Bool} {l : List Widget} {w : Widget}
    (h : w ∈ (partition pr l).2) : w ∈ l :=
  (List.mem_filter.mp h).1

lemma layer_step_ok_placements {styles : Styles}
    {la : List Widget → Size → List WidgetPlacement} {size viewport : Size}
    {acc : List WidgetPlacement × Spacing} {widgets : List Widget}
    {acc' : List WidgetPlacement × Spacing}
    (hdel : ∀ (ws : List Widget) (sz : Size), ∀ p ∈ la ws sz, p.widget ∈ ws.map Widget.id)
    (h : layer_step styles la size viewport acc widgets = .ok acc') :
    ∀ p ∈ acc'.1, p ∈ acc.1 ∨ p.widget ∈ widgets.map Widget.id := by
  simp only [layer_step] at h
  split at h
  · exact Except.noConfusion h
  next sp dr heqsplit =>
    have hsp : ∀ p ∈ sp, p.widget ∈ widgets.map Widget.id := by
      by_cases h1 : (partition has_split widgets).2.isEmpty
      · rw [if_pos h1] at heqsplit
        cases heqsplit
        intro p hp
        exact absurd hp (List.not_mem_nil p)
      · rw [if_neg h1] at heqsplit
        intro p hp
        have := (arrange_split_placements heqsplit p hp).2.2.2
        rcases List.mem_map.mp this with ⟨x, hx, hxe⟩
        exact List.mem_map.mpr ⟨x, mem_partition_snd hx, hxe⟩
    split at h
    · exact Except.noConfusion h
    next dp ds heqdock =>
      have hdp : ∀ p ∈ dp, p.widget ∈ widgets.map Widget.id := by
        by_cases h2 : (partition has_dock (partition has_split widgets).1).2.isEmpty
        · rw [if_pos h2] at heqdock
          cases heqdock
          intro p hp
          exact absurd hp (List.not_mem_nil p)
        · rw [if_neg h2] at heqdock
          intro p hp
          have := (arrange_dock_placements heqdock p hp).2.2.2
          rcases List.mem_map.mp this with ⟨x, hx, hxe⟩
          exact List.mem_map.mpr
            ⟨x, mem_partition_fst (mem_partition_snd hx), hxe⟩
      have hlw : ∀ p ∈ la ((partition has_dock (partition has_split widgets).1).1)
          ((dr.shrink ds).size), p.widget ∈ widgets.map Widget.id := by
        intro p hp
        have := hdel _ _ p hp
        rcases List.mem_map.mp this with ⟨x, hx, hxe⟩
        exact List.mem_map.mpr
          ⟨x, mem_partition_fst (mem_partition_fst hx), hxe⟩
      split at h
      next hfl =>
        cases h
        intro p hp
        rcases List.mem_append.mp hp with hp1 | hp2
        · rcases List.mem_append.mp hp1 with hp3 | hp4
          · exact Or.inl hp3
          · exact Or.inr (hsp p hp4)
        · exact Or.inr (hdp p hp2)
      next hfl =>
        cases h
        intro p hp
        rcases List.mem_append.mp hp with hp1 | hp2
        · rcases List.mem_append.mp hp1 with hp3 | hp4
          · rcases List.mem_append.mp hp3 with hp5 | hp6
            · exact Or.inl hp5
            · exact Or.inr (hsp p hp6)
          · exact Or.inr (hdp p hp4)
        · by_cases hoff : ((if styles.align_horizontal != "left" ||
              styles.align_vertical != "top" then
                ((dr.shrink ds).offset).add
                  ((styles.align_size
                    (WidgetPlacement.get_bounds
                      (la (partition has_dock (partition has_split widgets).1).1
                        ((dr.shrink ds).size))).size ((dr.shrink ds).size)).clamped)
              else (dr.shrink ds).offset) != (⟨0, 0⟩ : Offset)) = true
          · rw [if_pos hoff] at hp2
            obtain ⟨q, hq, hqe⟩ := translate_mem hp2
            rw [hqe]
            exact Or.inr (hlw q hq)
          · rw [if_neg hoff] at hp2
            exact Or.inr (hlw p hp2)

lemma arrange_layers_ok_placements {styles : Styles}
    {la : List Widget → Size → List WidgetPlacement} {size viewport : Size}
    (hdel : ∀ (ws : List Widget) (sz : Size), ∀ p ∈ la ws sz, p.widget ∈ ws.map Widget.id) :
    ∀ (layers : List (List Widget)) (acc acc' : List WidgetPlacement × Spacing),
    arrange_layers styles la size viewport acc layers = .ok acc' →
    ∀ p ∈ acc'.1, p ∈ acc.1 ∨ ∃ ws ∈ layers, p.widget ∈ ws.map Widget.id := by
  intro layers
  induction layers with
  | nil =>
      intro acc acc' h p hp
      cases h
      exact Or.inl hp
  | cons ws rest ih =>
      intro acc acc' h p hp
      simp only [arrange_layers] at h
      cases hstep : layer_step styles la size viewport acc ws with
      | error e => rw [hstep] at h; exact Except.noConfusion h
      | ok acc1 =>
          rw [hstep] at h
          replace h : arrange_layers styles la size viewport acc1 rest = .ok acc' := h
          rcases ih acc1 acc' h p hp with h1 | ⟨ws', hws', hw⟩
          · rcases layer_step_ok_placements hdel hstep p h1 with h2 | h3
            · exact Or.inl h2
            · exact Or.inr ⟨ws, List.mem_cons_self ws rest, h3⟩
          · exact Or.inr ⟨ws', List.mem_cons_of_mem ws hws', hw⟩

lemma arrange_ok_placements {widget : Widget}
    {la : List Widget → Size → List WidgetPlacement} {children : List Widget}
    {size viewport : Size} {res : DockArrangeResult}
    (hdel : ∀ (ws : List Widget) (sz : Size), ∀ p ∈ la ws sz, p.widget ∈ ws.map Widget.id)
    (h : arrange widget la children size viewport = .ok res) :
    ∀ p ∈ res.placements,
      p.widget ∈ (children.filter (fun c => c.styles.display != "none")).map Widget.id := by
  obtain ⟨acc, hacc, hres⟩ := arrange_ok_inv h
  subst hres
  intro p hp
  rcases arrange_layers_ok_placements hdel _ _ _ hacc p hp with h1 | ⟨ws, hws, hw⟩
  · exact absurd h1 (List.not_mem_nil p)
  · rcases List.mem_map.mp hws with ⟨q, hq, rfl⟩
    rcases List.mem_map.mp hw with ⟨x, hx, hxe⟩
    exact List.mem_map.mpr ⟨x, mem_build_dock_layers hq hx, hxe⟩

lemma partition_split_valid {widgets : List Widget} (hv : ∀ w ∈ widgets, valid_edges w) :
    ∀ w ∈ (partition has_split widgets).2, valid_edge w.styles.split := by
  intro w hw
  have hmem := List.mem_filter.mp hw
  rcases (hv w hmem.1).2 with h | h
  · exfalso
    have := hmem.2
    simp [has_split, h] at this
  · exact h

lemma partition_dock_valid {widgets : List Widget} (hv : ∀ w ∈ widgets, valid_edges w) :
    ∀ w ∈ (partition has_dock (partition has_split widgets).1).2, valid_edge w.styles.dock := by
  intro w hw
  have hmem := List.mem_filter.mp hw
  have hmem2 := List.mem_filter.mp hmem.1
  rcases (hv w hmem2.1).1 with h | h
  · exfalso
    have := hmem.2
    simp [has_dock, h] at this
  · exact h

lemma split_total_of_valid {split_widgets : List Widget} {size viewport : Size}
    (hv : ∀ w ∈ split_widgets, valid_edge w.styles.split) :
    ∃ x, _arrange_split_widgets split_widgets size viewport = .ok x := by
  obtain ⟨st, hst⟩ := split_loop_total split_widgets hv ⟨size.region, none, []⟩
  refine ⟨(st.placements, st.view_region), ?_⟩
  unfold _arrange_split_widgets
  rw [hst]
  rfl

lemma dock_total_of_valid {dock_widgets : List Widget} {region : Region} {viewport : Size}
    (hv : ∀ w ∈ dock_widgets, valid_edge w.styles.dock) :
    ∃ x, _arrange_dock_widgets dock_widgets region viewport = .ok x := by
  obtain ⟨st, hst⟩ := dock_loop_total dock_widgets hv ⟨[], 0, 0, 0, 0⟩
  refine ⟨(st.placements, ⟨st.top, st.right, st.bottom, st.left⟩), ?_⟩
  unfold _arrange_dock_widgets
  rw [hst]
  rfl

lemma layer_step_total {styles : Styles}
    {la : List Widget → Size → List WidgetPlacement} {size viewport : Size}
    {acc : List WidgetPlacement × Spacing} {widgets : List Widget}
    (hv : ∀ w ∈ widgets, valid_edges w) :
    ∃ acc', layer_step styles la size viewport acc widgets = .ok acc' := by
  simp only [layer_step]
  split
  next e heq =>
    exfalso
    by_cases h1 : (partition has_split widgets).2.isEmpty
    · rw [if_pos h1] at heq
      exact Except.noConfusion heq
    · rw [if_neg h1] at heq
      obtain ⟨x, hx⟩ := @split_total_of_valid (partition has_split widgets).2 size viewport
        (partition_split_valid hv)
      rw [hx] at heq
      exact Except.noConfusion heq
  next sp dr heqsplit =>
    split
    next e heq =>
      exfalso
      by_cases h2 : (partition has_dock (partition has_split widgets).1).2.isEmpty
      · rw [if_pos h2] at heq
        exact Except.noConfusion heq
      · rw [if_neg h2] at heq
        obtain ⟨x, hx⟩ := @dock_total_of_valid
          (partition has_dock (partition has_split widgets).1).2 dr viewport
          (partition_dock_valid hv)
        rw [hx] at heq
        exact Except.noConfusion heq
    next dp ds heqdock =>
      split
      · exact ⟨_, rfl⟩
      · exact ⟨_, rfl⟩

lemma arrange_layers_total {styles : Styles}
    {la : List Widget → Size → List WidgetPlacement} {size viewport : Size} :
    ∀ (layers : List (List Widget)), (∀ ws ∈ layers, ∀ w ∈ ws, valid_edges w) →
    ∀ acc, ∃ acc', arrange_layers styles la size viewport acc layers = .ok acc' := by
  intro layers
  induction layers with
  | nil => intro _ acc; exact ⟨acc, rfl⟩
  | cons ws rest ih =>
      intro hv acc
      obtain ⟨acc1, h1⟩ := @layer_step_total styles la size viewport acc ws
        (hv ws (List.mem_cons_self ws rest))
      obtain ⟨acc2, h2⟩ := ih (fun x hx => hv x (List.mem_cons_of_mem ws hx)) acc1
      refine ⟨acc2, ?_⟩
      simp only [arrange_layers]
      rw [h1]
      exact h2

lemma arrange_total {widget : Widget} {la : List Widget → Size → List WidgetPlacement}
    {children : List Widget} {size viewport : Size}
    (hv : ∀ w ∈ children, valid_edges w) :
    ∃ res, arrange widget la children size viewport = .ok res := by
  have hl : ∀ ws ∈ (_build_dock_layers
      (children.filter (fun c => c.styles.display != "none"))).map Prod.snd,
      ∀ w ∈ ws, valid_edges w := by
    intro ws hws w hw
    rcases List.mem_map.mp hws with ⟨q, hq, rfl⟩
    have := mem_build_dock_layers hq hw
    exact hv w (List.mem_filter.mp this).1
  obtain ⟨acc, hacc⟩ := @arrange_layers_total widget.styles la size viewport _ hl
    ([], Spacing.null)
  refine ⟨⟨acc.1,
    ((children.filter (fun c => c.styles.display != "none")).map Widget.id).toFinset,
    acc.2⟩, ?_⟩
  simp only [arrange]
  rw [hacc]
  rfl

/-! ### Claim theorems -/

/-- C1: split arrangement is strictly sequential and cumulative — processing a
layer's split widgets threads the view region through every widget in list
order (processing `ws1 ++ ws2` continues `ws2` from the state `ws1` left), and
in particular, from region (20,10), a split-left widget consuming width 4
followed by a split-right widget consuming width 3 leaves the remaining region
with origin (4,0) and size (13,10). -/
theorem C1_split_sequential_cumulative :
    (∀ (size viewport : Size) (st : SplitState) (ws1 ws2 : List Widget),
      split_loop size viewport st (ws1 ++ ws2) =
        (split_loop size viewport st ws1).bind
          (fun st1 => split_loop size viewport st1 ws2)) ∧
    _arrange_split_widgets [w_left4, w_right3] ⟨20, 10⟩ ⟨80, 24⟩ =
      .ok ([⟨⟨0, 0, 4, 10⟩, Spacing.null, 1, 1, true⟩,
            ⟨⟨17, 0, 3, 10⟩, Spacing.null, 2, 1, true⟩],
           ⟨4, 0, 13, 10⟩) :=
  ⟨fun size viewport st ws1 ws2 => split_loop_append size viewport ws1 ws2 st, rfl⟩

/-- C2 counterexample: the box model of a split widget is computed against the
container's original available size, not the split-reduced region.  After
`w_left4` consumes width 4 of the 20-wide region, the remaining region is 16
wide; `w_half` resolves to width 10 when offered width 20 and to width 8 when
offered width 16; the emitted placement is 10 wide, matching the original
size, not the reduced region. -/
theorem C2_basis_counterexample :
    _arrange_split_widgets [w_left4, w_half] ⟨20, 10⟩ ⟨80, 24⟩ =
      .ok ([⟨⟨0, 0, 4, 10⟩, Spacing.null, 1, 1, true⟩,
            ⟨⟨4, 0, 10, 10⟩, Spacing.null, 3, 1, true⟩],
           ⟨14, 0, 6, 10⟩) ∧
    (w_half.get_box_model ⟨20, 10⟩ ⟨80, 24⟩ 20 10).width = 10 ∧
    (w_half.get_box_model ⟨16, 10⟩ ⟨80, 24⟩ 16 10).width = 8 ∧
    (10 : Rat) ≠ 8 :=
  ⟨rfl, rfl, rfl, by decide⟩

/-- C2 amended: every split widget's box model (and hence its consumed
thickness) is computed against the container's original available `size`
argument, independent of the current (already reduced) view region; only the
cut itself is taken from the current view region. -/
theorem C2_split_basis_original_size :
    ∀ (size viewport : Size) (st : SplitState) (w : Widget),
      (w.styles.split = "left" →
        split_step size viewport st w = .ok
          ⟨(st.view_region.split_vertical (split_consumed_width w size viewport)).2,
           some (st.view_region.split_vertical (split_consumed_width w size viewport)).1,
           st.placements ++
             [⟨(st.view_region.split_vertical (split_consumed_width w size viewport)).1,
               Spacing.null, w.id, 1, true⟩]⟩) ∧
      (w.styles.split = "right" →
        split_step size viewport st w = .ok
          ⟨(st.view_region.split_vertical (-(split_consumed_width w size viewport))).1,
           some (st.view_region.split_vertical (-(split_consumed_width w size viewport))).2,
           st.placements ++
             [⟨(st.view_region.split_vertical (-(split_consumed_width w size viewport))).2,
               Spacing.null, w.id, 1, true⟩]⟩) ∧
      (w.styles.split = "top" →
        split_step size viewport st w = .ok
          ⟨(st.view_region.split_horizontal (split_consumed_height w size viewport)).2,
           some (st.view_region.split_horizontal (split_consumed_height w size viewport)).1,
           st.placements ++
             [⟨(st.view_region.split_horizontal (split_consumed_height w size viewport)).1,
               Spacing.null, w.id, 1, true⟩]⟩) ∧
      (w.styles.split = "bottom" →
        split_step size viewport st w = .ok
          ⟨(st.view_region.split_horizontal (-(split_consumed_height w size viewport))).1,
           some (st.view_region.split_horizontal (-(split_consumed_height w size viewport))).2,
           st.placements ++
             [⟨(st.view_region.split_horizontal (-(split_consumed_height w size viewport))).2,
               Spacing.null, w.id, 1, true⟩]⟩) := by
  intro size viewport st w
  refine ⟨?_, ?_, ?_, ?_⟩ <;>
    (intro h; simp only [split_step, split_branch, h]; rfl)

/-- Witness for the amended C2 theorem at concrete widgets on all four edges. -/
theorem C2_split_basis_original_size_witness :
    split_step ⟨20, 10⟩ ⟨80, 24⟩ ⟨⟨0, 0, 20, 10⟩, none, []⟩ w_left4 =
      .ok ⟨⟨4, 0, 16, 10⟩, some ⟨0, 0, 4, 10⟩,
           [⟨⟨0, 0, 4, 10⟩, Spacing.null, 1, 1, true⟩]⟩ ∧
    split_step ⟨20, 10⟩ ⟨80, 24⟩ ⟨⟨0, 0, 20, 10⟩, none, []⟩ w_right3 =
      .ok ⟨⟨0, 0, 17, 10⟩, some ⟨17, 0, 3, 10⟩,
           [⟨⟨17, 0, 3, 10⟩, Spacing.null, 2, 1, true⟩]⟩ ∧
    split_step ⟨20, 10⟩ ⟨80, 24⟩ ⟨⟨0, 0, 20, 10⟩, none, []⟩ w_top2 =
      .ok ⟨⟨0, 2, 20, 8⟩, some ⟨0, 0, 20, 2⟩,
           [⟨⟨0, 0, 20, 2⟩, Spacing.null, 4, 1, true⟩]⟩ ∧
    split_step ⟨20, 10⟩ ⟨80, 24⟩ ⟨⟨0, 0, 20, 10⟩, none, []⟩ w_bottom1 =
      .ok ⟨⟨0, 0, 20, 9⟩, some ⟨0, 9, 20, 1⟩,
           [⟨⟨0, 9, 20, 1⟩, Spacing.null, 15, 1, true⟩]⟩ := by
  refine ⟨?_, ?_, ?_, ?_⟩
  · exact (C2_split_basis_original_size ⟨20, 10⟩ ⟨80, 24⟩ ⟨⟨0, 0, 20, 10⟩, none, []⟩ w_left4).1 rfl
  · exact (C2_split_basis_original_size ⟨20, 10⟩ ⟨80, 24⟩ ⟨⟨0, 0, 20, 10⟩, none, []⟩ w_right3).2.1 rfl
  · exact (C2_split_basis_original_size ⟨20, 10⟩ ⟨80, 24⟩ ⟨⟨0, 0, 20, 10⟩, none, []⟩ w_top2).2.2.1 rfl
  · exact (C2_split_basis_original_size ⟨20, 10⟩ ⟨80, 24⟩ ⟨⟨0, 0, 20, 10⟩, none, []⟩ w_bottom1).2.2.2 rfl

/-- C3 counterexample: a widget docked "top" whose box model resolves to width
5 in a 20-wide region gets the rectangle (0,0,5,2) — flush against the top
edge but only 5 wide, not spanning the region's full width 20. -/
theorem C3_full_span_counterexample :
    _arrange_dock_widgets [w_dock_narrow] ⟨0, 0, 20, 10⟩ ⟨80, 24⟩ =
      .ok ([⟨⟨0, 0, 5, 2⟩, Spacing.null, 7, TOP_Z, true⟩], ⟨2, 0, 0, 0⟩) ∧
    initial_dock_region "top" 20 10 5 2 = some ⟨0, 0, 5, 2⟩ ∧
    (⟨0, 0, 5, 2⟩ : Region).width ≠ (⟨0, 0, 20, 10⟩ : Region).width :=
  ⟨rfl, rfl, by decide⟩

/-- C3 amended: the rectangle built before margin shrink and alignment
translation is flush against the target edge, and both of its extents are the
widget's box-model-derived width and height (it spans the region's full
perpendicular dimension only when the box model resolves that dimension to the
region's extent). -/
theorem C3_dock_rect_flush :
    ∀ (edge : String) (W H ww wh : Int) (r : Region),
      initial_dock_region edge W H ww wh = some r →
      r.width = ww ∧ r.height = wh ∧
      (edge = "top" → r.y = 0) ∧
      (edge = "bottom" → r.y + r.height = H) ∧
      (edge = "left" → r.x = 0) ∧
      (edge = "right" → r.x + r.width = W) := by
  intro edge W H ww wh r h
  simp only [initial_dock_region] at h
  split_ifs at h with h1 h2 h3 h4 <;> cases h
  · have he : edge = "bottom" := by simpa using h1
    subst he
    refine ⟨rfl, rfl, ?_, ?_, ?_, ?_⟩
    · intro h'; exact absurd h' (by decide)
    · intro _; show H - wh + wh = H; omega
    · intro h'; exact absurd h' (by decide)
    · intro h'; exact absurd h' (by decide)
  · have he : edge = "top" := by simpa using h2
    subst he
    refine ⟨rfl, rfl, ?_, ?_, ?_, ?_⟩
    · intro _; rfl
    · intro h'; exact absurd h' (by decide)
    · intro h'; exact absurd h' (by decide)
    · intro h'; exact absurd h' (by decide)
  · have he : edge = "left" := by simpa using h3
    subst he
    refine ⟨rfl, rfl, ?_, ?_, ?_, ?_⟩
    · intro h'; exact absurd h' (by decide)
    · intro h'; exact absurd h' (by decide)
    · intro _; rfl
    · intro h'; exact absurd h' (by decide)
  · have he : edge = "right" := by simpa using h4
    subst he
    refine ⟨rfl, rfl, ?_, ?_, ?_, ?_⟩
    · intro h'; exact absurd h' (by decide)
    · intro h'; exact absurd h' (by decide)
    · intro h'; exact absurd h' (by decide)
    · intro _; show W - ww + ww = W; omega

/-- Witness for the amended C3 theorem at a concrete dock-top rectangle. -/
theorem C3_dock_rect_flush_witness :
    (⟨0, 0, 5, 2⟩ : Region).width = 5 ∧ (⟨0, 0, 5, 2⟩ : Region).height = 2 ∧
    (⟨0, 0, 5, 2⟩ : Region).y = 0 := by
  have h := C3_dock_rect_flush "top" 20 10 5 2 ⟨0, 0, 5, 2⟩ rfl
  exact ⟨h.1, h.2.1, h.2.2.1 rfl⟩

/-- C4: the dock spacing returned by `_arrange_dock_widgets` has, at each of
the four edges, the running maximum (never the sum) of the consumed
thicknesses of the widgets docked on that edge; in particular two widgets
docked "top" with consumed heights 3 and 5 yield top-spacing 5, not 8. -/
theorem C4_dock_spacing_max :
    (∀ (dock_widgets : List Widget) (region : Region) (viewport : Size)
       (dp : List WidgetPlacement) (ds : Spacing),
      _arrange_dock_widgets dock_widgets region viewport = .ok (dp, ds) →
      ds = ⟨edge_max "top" (fun w => dock_consumed_height w region.size viewport) dock_widgets 0,
            edge_max "right" (fun w => dock_consumed_width w region.size viewport) dock_widgets 0,
            edge_max "bottom" (fun w => dock_consumed_height w region.size viewport) dock_widgets 0,
            edge_max "left" (fun w => dock_consumed_width w region.size viewport) dock_widgets 0⟩) ∧
    _arrange_dock_widgets [w_dock_top3, w_dock_top5] ⟨0, 0, 20, 10⟩ ⟨80, 24⟩ =
      .ok ([⟨⟨0, 0, 20, 3⟩, Spacing.null, 9, TOP_Z, true⟩,
            ⟨⟨0, 0, 20, 5⟩, Spacing.null, 10, TOP_Z, true⟩],
           ⟨5, 0, 0, 0⟩) ∧
    (5 : Int) ≠ 3 + 5 :=
  ⟨fun _ _ _ _ _ h => arrange_dock_spacing h, rfl, by decide⟩

/-- Witness for C4's maximum formula at two concrete dock-top widgets. -/
theorem C4_dock_spacing_max_witness :
    (⟨5, 0, 0, 0⟩ : Spacing) =
      ⟨edge_max "top"
         (fun w => dock_consumed_height w (⟨0, 0, 20, 10⟩ : Region).size ⟨80, 24⟩)
         [w_dock_top3, w_dock_top5] 0,
       edge_max "right"
         (fun w => dock_consumed_width w (⟨0, 0, 20, 10⟩ : Region).size ⟨80, 24⟩)
         [w_dock_top3, w_dock_top5] 0,
       edge_max "bottom"
         (fun w => dock_consumed_height w (⟨0, 0, 20, 10⟩ : Region).size ⟨80, 24⟩)
         [w_dock_top3, w_dock_top5] 0,
       edge_max "left"
         (fun w => dock_consumed_width w (⟨0, 0, 20, 10⟩ : Region).size ⟨80, 24⟩)
         [w_dock_top3, w_dock_top5] 0⟩ :=
  C4_dock_spacing_max.1 [w_dock_top3, w_dock_top5] ⟨0, 0, 20, 10⟩ ⟨80, 24⟩ _ _ rfl


/-- C5: the aggregate scroll spacing of the arrangement equals the
component-wise maximum (a `grow_maximum` fold) of the per-layer dock spacings
over exactly those layers that contain at least one flow widget; in
particular, a layer with dock top-spacing 2 and flow content plus a layer with
dock top-spacing 5 and no flow content report scroll-spacing top 2. -/
theorem C5_scroll_spacing_flow_layers :
    (∀ (container : Widget) (la : List Widget → Size → List WidgetPlacement)
       (children : List Widget) (size viewport : Size) (res : DockArrangeResult),
      arrange container la children size viewport = .ok res →
      res.scroll_spacing =
        ((_build_dock_layers (children.filter (fun c => c.styles.display != "none"))).map
            Prod.snd).foldl
          (fun s ws => if layer_has_flow ws
                       then s.grow_maximum (layer_dock_spacing size viewport ws) else s)
          Spacing.null) ∧
    (arrange c_container demo_la [w_dockA2, w_flowA, w_dockB5] ⟨20, 10⟩ ⟨80, 24⟩).map
        DockArrangeResult.scroll_spacing = .ok ⟨2, 0, 0, 0⟩ := by
  constructor
  · intro container la children size viewport res h
    obtain ⟨acc, hacc, hres⟩ := arrange_ok_inv h
    subst hres
    exact arrange_layers_ok_scroll _ _ _ hacc
  · rfl

/-- Witness for C5's fold formula at the two-layer example. -/
theorem C5_scroll_spacing_flow_layers_witness :
    (⟨2, 0, 0, 0⟩ : Spacing) =
      ((_build_dock_layers ([w_dockA2, w_flowA, w_dockB5].filter
          (fun c => c.styles.display != "none"))).map Prod.snd).foldl
        (fun s ws => if layer_has_flow ws
                     then s.grow_maximum (layer_dock_spacing ⟨20, 10⟩ ⟨80, 24⟩ ws) else s)
        Spacing.null := by
  have h := C5_scroll_spacing_flow_layers.1 c_container demo_la [w_dockA2, w_flowA, w_dockB5]
    ⟨20, 10⟩ ⟨80, 24⟩ _ rfl
  exact h

/-- C6: every placement emitted for a split widget has z-order exactly 1 and
`absolute = true`; every placement emitted for a docked widget has z-order
`TOP_Z`, the reserved maximal sentinel `2^31 - 1`, and `absolute = true`. -/
theorem C6_zorder :
    (∀ (ws : List Widget) (size viewport : Size) (sp : List WidgetPlacement) (vr : Region),
      _arrange_split_widgets ws size viewport = .ok (sp, vr) →
      ∀ p ∈ sp, p.order = 1 ∧ p.absolute = true) ∧
    (∀ (ws : List Widget) (region : Region) (viewport : Size)
       (dp : List WidgetPlacement) (ds : Spacing),
      _arrange_dock_widgets ws region viewport = .ok (dp, ds) →
      ∀ p ∈ dp, p.order = TOP_Z ∧ p.absolute = true) ∧
    TOP_Z = 2 ^ 31 - 1 := by
  refine ⟨?_, ?_, rfl⟩
  · intro ws size viewport sp vr h p hp
    have hh := arrange_split_placements h p hp
    exact ⟨hh.2.1, hh.2.2.1⟩
  · intro ws region viewport dp ds h p hp
    have hh := arrange_dock_placements h p hp
    exact ⟨hh.2.1, hh.2.2.1⟩

/-- Witness for C6 at a concrete split widget and a concrete dock widget. -/
theorem C6_zorder_witness :
    (∀ p ∈ [(⟨⟨0, 0, 4, 10⟩, Spacing.null, 1, 1, true⟩ : WidgetPlacement)],
        p.order = 1 ∧ p.absolute = true) ∧
    (∀ p ∈ [(⟨⟨0, 0, 20, 3⟩, Spacing.null, 9, TOP_Z, true⟩ : WidgetPlacement)],
        p.order = TOP_Z ∧ p.absolute = true) := by
  constructor
  · exact C6_zorder.1 [w_left4] ⟨20, 10⟩ ⟨80, 24⟩ _ _ rfl
  · exact C6_zorder.2.1 [w_dock_top3] ⟨0, 0, 20, 10⟩ ⟨80, 24⟩ _ _ rfl

/-- C7: children with `display = "none"` are excluded from the visible set and
referenced by no placement (assuming the flow delegate only references the
widgets it is given, and that widget identities are distinct); the visible set
is exactly the displayed children. -/
theorem C7_visibility_gate :
    ∀ (container : Widget) (la : List Widget → Size → List WidgetPlacement)
      (children : List Widget) (size viewport : Size) (res : DockArrangeResult),
      (∀ (ws : List Widget) (sz : Size), ∀ p ∈ la ws sz, p.widget ∈ ws.map Widget.id) →
      (children.map Widget.id).Nodup →
      arrange container la children size viewport = .ok res →
      res.widgets =
        ((children.filter (fun c => c.styles.display != "none")).map Widget.id).toFinset ∧
      ∀ child ∈ children, child.styles.display = "none" →
        child.id ∉ res.widgets ∧ ∀ p ∈ res.placements, p.widget ≠ child.id := by
  intro container la children size viewport res hdel hnodup h
  obtain ⟨acc, hacc, hres⟩ := arrange_ok_inv h
  subst hres
  refine ⟨rfl, ?_⟩
  intro child hchild hnone
  have hidnot : child.id ∉
      (children.filter (fun c => c.styles.display != "none")).map Widget.id := by
    intro hmem
    rcases List.mem_map.mp hmem with ⟨x, hx, hxe⟩
    have hxchildren := (List.mem_filter.mp hx).1
    have hxdisp := (List.mem_filter.mp hx).2
    by_cases hxc : x = child
    · subst hxc
      rw [hnone] at hxdisp
      simp at hxdisp
    · exact hxc (List.inj_on_of_nodup_map hnodup hxchildren hchild hxe)
  constructor
  · simp only [DockArrangeResult.widgets, List.mem_toFinset]
    exact hidnot
  · intro p hp heq
    exact hidnot (heq ▸ arrange_ok_placements hdel h p hp)

/-- Witness for C7: the hidden widget is absent from the visible set and from
all placements of a concrete arrangement. -/
theorem C7_visibility_gate_witness :
    w_hidden.styles.display = "none" ∧
    w_hidden.id ∉ c7_result.widgets ∧
    ∀ p ∈ c7_result.placements, p.widget ≠ w_hidden.id := by
  have h := C7_visibility_gate c_container demo_la [w_flowA, w_hidden] ⟨20, 10⟩ ⟨80, 24⟩
    c7_result
    (by intro ws sz p hp
        simp only [demo_la] at hp
        rcases List.mem_map.mp hp with ⟨x, hx, rfl⟩
        exact List.mem_map.mpr ⟨x, hx, rfl⟩)
    (by decide)
    rfl
  have h2 := h.2 w_hidden (by simp) rfl
  exact ⟨rfl, h2.1, h2.2⟩

/-- C8: dispatch on an unrecognized edge.  A widget with an unrecognized dock
edge raises (`AssertionError`), and an unrecognized split edge on the *first*
split widget raises (`UnboundLocalError`); but an unrecognized split edge on a
later split widget is silently given the previous widget's split region and
arrangement returns successfully — no exception is raised. -/
theorem C8_unrecognized_edge_behavior :
    _arrange_dock_widgets [w_bad_dock] ⟨0, 0, 10, 10⟩ ⟨80, 24⟩ =
      .error "AssertionError: invalid value for edge" ∧
    _arrange_split_widgets [w_bad_split] ⟨10, 10⟩ ⟨80, 24⟩ =
      .error "UnboundLocalError: split_region" ∧
    _arrange_split_widgets [w_top2, w_bad_split] ⟨10, 10⟩ ⟨80, 24⟩ =
      .ok ([⟨⟨0, 0, 10, 2⟩, Spacing.null, 4, 1, true⟩,
            ⟨⟨0, 0, 10, 2⟩, Spacing.null, 5, 1, true⟩],
           ⟨0, 2, 10, 8⟩) :=
  ⟨rfl, rfl, rfl⟩

/-- C9: an empty children list yields the empty result (no placements, empty
visible set, null scroll spacing) for every size — including a zero size — and
a zero-size available region with children whose edge values are all
recognized yields a non-error result. -/
theorem C9_degenerate_inputs :
    (∀ (container : Widget) (la : List Widget → Size → List WidgetPlacement)
       (size viewport : Size),
      arrange container la [] size viewport = .ok ⟨[], ∅, Spacing.null⟩) ∧
    (∀ (container : Widget) (la : List Widget → Size → List WidgetPlacement)
       (children : List Widget) (viewport : Size),
      (∀ w ∈ children, valid_edges w) →
      ∃ res, arrange container la children ⟨0, 0⟩ viewport = .ok res) := by
  constructor
  · intro container la size viewport
    rfl
  · intro container la children viewport hv
    exact arrange_total hv

/-- Witness for C9's zero-size totality at a concrete split widget. -/
theorem C9_degenerate_inputs_witness :
    ∃ res, arrange c_container demo_la [w_left4] ⟨0, 0⟩ ⟨80, 24⟩ = .ok res :=
  C9_degenerate_inputs.2 c_container demo_la [w_left4] ⟨80, 24⟩ (by decide)

/-- C10: every placement emitted for a split or docked widget carries the null
spacing in its margin field; the margin is instead absorbed into the geometry:
a split widget's consumed thickness is `int(dimension) + margin extent` and
its placement region is the split region verbatim, while a docked widget's
emitted region is the edge rectangle shrunk by its margin (then translated by
alignment and origin). -/
theorem C10_margin_absorbed :
    (∀ (ws : List Widget) (size viewport : Size) (sp : List WidgetPlacement) (vr : Region),
      _arrange_split_widgets ws size viewport = .ok (sp, vr) →
      ∀ p ∈ sp, p.margin = Spacing.null) ∧
    (∀ (ws : List Widget) (region : Region) (viewport : Size)
       (dp : List WidgetPlacement) (ds : Spacing),
      _arrange_dock_widgets ws region viewport = .ok (dp, ds) →
      ∀ p ∈ dp, p.margin = Spacing.null) ∧
    (∀ (w : Widget) (size viewport : Size),
      split_consumed_width w size viewport =
        ratToInt (w.get_box_model size viewport (size.width : Rat) (size.height : Rat)).width +
          (w.get_box_model size viewport (size.width : Rat) (size.height : Rat)).margin.width ∧
      split_consumed_height w size viewport =
        ratToInt (w.get_box_model size viewport (size.width : Rat) (size.height : Rat)).height +
          (w.get_box_model size viewport (size.width : Rat) (size.height : Rat)).margin.height) ∧
    (∀ (region : Region) (viewport : Size) (st : DockState) (w : Widget) (st' : DockState),
      dock_step region viewport st w = .ok st' →
      ∃ r0, initial_dock_region w.styles.dock region.width region.height
          (dock_consumed_width w region.size viewport)
          (dock_consumed_height w region.size viewport) = some r0 ∧
        st'.placements = st.placements ++
          [⟨((r0.shrink (w.get_box_model region.size viewport
                (region.size.width : Rat) (region.size.height : Rat)).margin).translate
              (w.styles.align_size
                ⟨dock_consumed_width w region.size viewport,
                 dock_consumed_height w region.size viewport⟩ region.size)).translate
             region.offset,
            Spacing.null, w.id, TOP_Z, true⟩]) := by
  refine ⟨?_, ?_, ?_, ?_⟩
  · intro ws size viewport sp vr h p hp
    exact (arrange_split_placements h p hp).1
  · intro ws region viewport dp ds h p hp
    exact (arrange_dock_placements h p hp).1
  · intro w size viewport
    exact ⟨rfl, rfl⟩
  · intro region viewport st w st' h
    obtain ⟨r0, hr, hshape⟩ := dock_step_ok_shape h
    exact ⟨r0, hr, by rw [hshape]⟩

/-- Witness for C10 at widgets with non-zero margins: the split widget with
margin (1,1,1,1) and width 4 consumes width 6 and its placement margin is
null; the dock widget with margin (1,1,1,1) emits the margin-shrunk rectangle
(1,1,5,2) with a null placement margin. -/
theorem C10_margin_absorbed_witness :
    (∀ p ∈ [(⟨⟨0, 0, 6, 10⟩, Spacing.null, 16, 1, true⟩ : WidgetPlacement)],
        p.margin = Spacing.null) ∧
    (∀ p ∈ [(⟨⟨1, 1, 5, 2⟩, Spacing.null, 8, TOP_Z, true⟩ : WidgetPlacement)],
        p.margin = Spacing.null) ∧
    split_consumed_width w_split_margin ⟨20, 10⟩ ⟨80, 24⟩ =
      ratToInt (w_split_margin.get_box_model ⟨20, 10⟩ ⟨80, 24⟩ 20 10).width +
        (w_split_margin.get_box_model ⟨20, 10⟩ ⟨80, 24⟩ 20 10).margin.width ∧
    (∃ r0, initial_dock_region w_dock_margin.styles.dock
        (⟨0, 0, 20, 10⟩ : Region).width (⟨0, 0, 20, 10⟩ : Region).height
        (dock_consumed_width w_dock_margin (⟨0, 0, 20, 10⟩ : Region).size ⟨80, 24⟩)
        (dock_consumed_height w_dock_margin (⟨0, 0, 20, 10⟩ : Region).size ⟨80, 24⟩) =
          some r0 ∧
      (⟨[⟨⟨1, 1, 5, 2⟩, Spacing.null, 8, TOP_Z, true⟩], 4, 0, 0, 0⟩ : DockState).placements =
        (⟨[], 0, 0, 0, 0⟩ : DockState).placements ++
          [⟨((r0.shrink (w_dock_margin.get_box_model (⟨0, 0, 20, 10⟩ : Region).size ⟨80, 24⟩
                ((⟨0, 0, 20, 10⟩ : Region).size.width : Rat)
                ((⟨0, 0, 20, 10⟩ : Region).size.height : Rat)).margin).translate
              (w_dock_margin.styles.align_size
                ⟨dock_consumed_width w_dock_margin (⟨0, 0, 20, 10⟩ : Region).size ⟨80, 24⟩,
                 dock_consumed_height w_dock_margin (⟨0, 0, 20, 10⟩ : Region).size ⟨80, 24⟩⟩
                (⟨0, 0, 20, 10⟩ : Region).size)).translate (⟨0, 0, 20, 10⟩ : Region).offset,
            Spacing.null, w_dock_margin.id, TOP_Z, true⟩]) := by
  refine ⟨?_, ?_, ?_, ?_⟩
  · exact C10_margin_absorbed.1 [w_split_margin] ⟨20, 10⟩ ⟨80, 24⟩ _ _ rfl
  · exact C10_margin_absorbed.2.1 [w_dock_margin] ⟨0, 0, 20, 10⟩ ⟨80, 24⟩ _ _ rfl
  · exact (C10_margin_absorbed.2.2.1 w_split_margin ⟨20, 10⟩ ⟨80, 24⟩).1
  · exact C10_margin_absorbed.2.2.2 ⟨0, 0, 20, 10⟩ ⟨80, 24⟩ ⟨[], 0, 0, 0, 0⟩ w_dock_margin
      ⟨[⟨⟨1, 1, 5, 2⟩, Spacing.null, 8, TOP_Z, true⟩], 4, 0, 0, 0⟩ rfl

end TextualArrange
